import Mathlib

/-!
Verification development for the mod-loading subsystem of
BetterMinesweeper-Windows (`src/_internal/mods/`): asset management with
conflict resolution (`asset_manager.py`), the event bus (`event_system.py`),
content registries (`mod_api.py`), and mod discovery / dependency resolution /
load-unload lifecycle (`mod_manager.py`).

Python dictionaries are embedded as association lists (`List (κ × ν)`)
preserving insertion order, with assignment replacing an existing key in place
and appending a fresh key at the end, exactly like CPython dicts.
-/

set_option maxRecDepth 4096

namespace MS

/-! ## Association-list model of Python dicts -/

variable {κ : Type} {ν : Type} [DecidableEq κ]

/-- `d[k]` lookup (`None` when absent): first — and, when keys are unique,
only — binding of `k`. -/
def assocLookup : List (κ × ν) → κ → Option ν
  | [], _ => none
  | (k', v) :: rest, k => if k' = k then some v else assocLookup rest k

/-- `d[k] = v`: replace the binding in place when the key exists,
append at the end otherwise (CPython dict-assignment semantics). -/
def assocSet : List (κ × ν) → κ → ν → List (κ × ν)
  | [], k, v => [(k, v)]
  | (k', v') :: rest, k, v =>
    if k' = k then (k', v) :: rest else (k', v') :: assocSet rest k v

/-- `del d[k]`: remove the (first) binding of `k`. -/
def assocErase : List (κ × ν) → κ → List (κ × ν)
  | [], _ => []
  | (k', v') :: rest, k =>
    if k' = k then rest else (k', v') :: assocErase rest k

/-- `k in d` membership test. -/
def assocHas (d : List (κ × ν)) (k : κ) : Bool :=
  (assocLookup d k).isSome

/-- Stable insertion into a list sorted by `le` (new element placed before the
first element it is `le`-related to, hence after all earlier equal keys):
the building block of a stable sort matching CPython's `sorted`. -/
def stableInsert (le : ν → ν → Bool) (x : ν) : List ν → List ν
  | [] => [x]
  | y :: ys => if le x y then x :: y :: ys else y :: stableInsert le x ys

/-- Stable sort by a total boolean `le`, mirroring CPython's stable `sorted`. -/
def stableSort (le : ν → ν → Bool) (l : List ν) : List ν :=
  l.foldr (stableInsert le) []

/-! ## `asset_manager.py` — `AssetInfo`, `AssetManager` -/

/-- `AssetInfo` dataclass. `path` is kept as an opaque string. -/
structure AssetInfo where
  name : String
  path : String
  mod_name : String
  priority : Int
  asset_type : String
  deriving DecidableEq

/-- The mutable state of `AssetManager`: the primary lookup table
`assets` (one winning entry per logical name) and the `conflicts` table
(every contender, in registration order). The `asset_cache` field only
feeds `load_config`, which no claim touches, and is omitted. -/
structure AssetManagerState where
  assets : List (String × AssetInfo)
  conflicts : List (String × List AssetInfo)
  deriving DecidableEq

/-- `AssetManager.__init__`. -/
def AssetManager.empty : AssetManagerState := ⟨[], []⟩

/-- `AssetManager._register_asset`: on a name collision record both entries in
`conflicts` and let the strictly lower `priority` number win the primary
table; otherwise just insert. -/
def register_asset (am : AssetManagerState) (a : AssetInfo) : AssetManagerState :=
  match assocLookup am.assets a.name with
  | some existing =>
    let conflictList := (assocLookup am.conflicts a.name).getD [existing]
    let conflicts' := assocSet am.conflicts a.name (conflictList ++ [a])
    if a.priority < existing.priority then
      { assets := assocSet am.assets a.name a, conflicts := conflicts' }
    else
      { am with conflicts := conflicts' }
  | none => { am with assets := am.assets ++ [(a.name, a)] }

/-- `AssetManager.get_asset_path`: exact name first, then the
`tilesets/`, `sounds/`, `fonts/` fallbacks. -/
def get_asset_path (am : AssetManagerState) (asset_name : String) : Option String :=
  match assocLookup am.assets asset_name with
  | some a => some a.path
  | none =>
    let try_dir := fun (d : String) =>
      (assocLookup am.assets s!"{d}/{asset_name}").map (·.path)
    ((try_dir "tilesets").orElse fun _ =>
      (try_dir "sounds").orElse fun _ => try_dir "fonts")

/-- `AssetManager.get_conflicts` (returns a copy; copying is identity here). -/
def get_conflicts (am : AssetManagerState) : List (String × List AssetInfo) :=
  am.conflicts

/-- `AssetManager.resolve_conflict`: promote the first recorded conflicting
entry owned by `preferred_mod` to the primary table. -/
def resolve_conflict (am : AssetManagerState) (asset_name preferred_mod : String) :
    Bool × AssetManagerState :=
  match assocLookup am.conflicts asset_name with
  | none => (false, am)
  | some conflictList =>
    match conflictList.find? (fun a => a.mod_name = preferred_mod) with
    | some a => (true, { am with assets := assocSet am.assets asset_name a })
    | none => (false, am)

/-- `AssetManager.unregister_mod_assets` (cache clearing omitted with the
cache). -/
def unregister_mod_assets (am : AssetManagerState) (mod_name : String) :
    AssetManagerState :=
  let assets' := am.assets.filter (fun p => p.2.mod_name ≠ mod_name)
  let conflicts' :=
    (am.conflicts.map (fun p => (p.1, p.2.filter (fun a => a.mod_name ≠ mod_name)))).filter
      (fun p => ¬ p.2.isEmpty)
  { assets := assets', conflicts := conflicts' }

/-! ## `event_system.py` — `Event`, `EventHandler`, `EventSystem` -/

/-- `EventPriority` values from `MOD_EVENT_REGISTRY` in `config/constants.py`. -/
def PRIORITY_HIGHEST : Int := 0
def PRIORITY_HIGH : Int := 250
def PRIORITY_NORMAL : Int := 500
def PRIORITY_LOW : Int := 750
def PRIORITY_LOWEST : Int := 1000
def PRIORITY_MONITOR : Int := -1000

/-- Event payload: `Dict[str, Any]` with the values abstracted to `Int`. -/
abbrev Payload := List (String × Int)

/-- The `Event` dataclass: name, payload and a `cancelled` flag. -/
structure Event where
  name : String
  data : Payload
  cancelled : Bool
  deriving DecidableEq

/-- What one invocation of a handler callback does to the event it receives:
the payload it leaves behind, whether it calls `event.cancel()`, and whether
it raises. A raise happens after the mutations, which persist on the shared
event object; `emit_event` catches it (`except` block), so `raises` has no
further effect on dispatch. -/
structure CbEffect where
  newData : Payload
  cancels : Bool
  raises : Bool

/-- An `EventHandler` registration. -/
structure EventHandler where
  callback : Event → CbEffect
  priority : Int
  mod_name : String
  event_name : String

/-- `EventSystem` state: handler lists per event name plus emit statistics. -/
structure EventSystemState where
  handlers : List (String × List EventHandler)
  event_stats : List (String × Nat)

def EventSystem.empty : EventSystemState := ⟨[], []⟩

/-- `bisect.insort` on the handler list, comparing by `EventHandler.__lt__`
(priority): the newcomer is placed after existing handlers of equal
priority. -/
def insortHandler (h : EventHandler) : List EventHandler → List EventHandler
  | [] => [h]
  | x :: xs => if h.priority < x.priority then h :: x :: xs else x :: insortHandler h xs

/-- `EventSystem.register_handler` (the `try` never fails in the model, as the
real body only raises on pathological callback objects). -/
def register_handler (s : EventSystemState) (event_name : String)
    (callback : Event → CbEffect) (priority : Int) (mod_name : String) :
    Bool × EventSystemState :=
  let hs := (assocLookup s.handlers event_name).getD []
  let h : EventHandler := ⟨callback, priority, mod_name, event_name⟩
  (true, { s with handlers := assocSet s.handlers event_name (insortHandler h hs) })

/-- `EventSystem.get_handlers`. -/
def get_handlers (s : EventSystemState) (event_name : String) : List EventHandler :=
  (assocLookup s.handlers event_name).getD []

/-- Running `handler.callback(event)` inside the dispatcher's `try`: the
callback's mutations to the shared event persist whether or not it raises;
a raise is caught and logged. -/
def applyCallback (h : EventHandler) (ev : Event) : Event :=
  let r := h.callback ev
  { ev with data := r.newData, cancelled := ev.cancelled || r.cancels }

/-- The dispatch loop of `EventSystem.emit_event` over one handler list.
Besides the final event it returns, as an observation, the
`(mod_name, priority)` of each handler actually invoked, in invocation
order. -/
def dispatchList : List EventHandler → Event → Event × List (String × Int)
  | [], ev => (ev, [])
  | h :: rest, ev =>
    if ev.cancelled && h.priority != PRIORITY_MONITOR then
      dispatchList rest ev
    else
      let ev2 := applyCallback h ev
      let r := dispatchList rest ev2
      (r.1, (h.mod_name, h.priority) :: r.2)

/-- `EventSystem.emit_event`: build the event, run the handler list, bump the
per-event counter. Returns the event, the invocation observation and the new
state. -/
def emit_event (s : EventSystemState) (event_name : String) (data : Payload) :
    Event × List (String × Int) × EventSystemState :=
  let ev0 : Event := ⟨event_name, data, false⟩
  let r := dispatchList (get_handlers s event_name) ev0
  let stats := assocSet s.event_stats event_name
    ((assocLookup s.event_stats event_name).getD 0 + 1)
  (r.1, r.2, { s with event_stats := stats })

/-- A registration request, for quantifying over registration sequences. -/
structure RegReq where
  event_name : String
  callback : Event → CbEffect
  priority : Int
  mod_name : String

/-- A sequence of `register_handler` calls from a fresh `EventSystem`. -/
def registerAll (regs : List RegReq) : EventSystemState :=
  regs.foldl
    (fun s r => (register_handler s r.event_name r.callback r.priority r.mod_name).2)
    EventSystem.empty

/-! ## `mod_api.py` — `Registry` -/

/-- `Registry` state: `entries` (key to value, `Any` abstracted to a type
parameter) and `mod_entries` (owner namespace to the keys it registered). -/
structure RegistryState (α : Type) where
  name : String
  entries : List (String × α)
  mod_entries : List (String × List String)
  deriving DecidableEq

/-- `Registry(name)`. -/
def Registry.init (α : Type) (name : String) : RegistryState α := ⟨name, [], []⟩

/-- `Registry.register`: always succeeds; an existing key is overwritten (with
a logged warning); the key is appended to the registering mod's entry list. -/
def Registry.register (r : RegistryState α) (key : String) (value : α)
    (mod_name : String) : Bool × RegistryState α :=
  let entries := assocSet r.entries key value
  let owned := (assocLookup r.mod_entries mod_name).getD []
  let me := assocSet r.mod_entries mod_name (owned ++ [key])
  (true, { r with entries := entries, mod_entries := me })

/-- `Registry.unregister` (note: `mod_entries` is not updated). -/
def Registry.unregister (r : RegistryState α) (key : String) : Bool × RegistryState α :=
  if assocHas r.entries key then
    (true, { r with entries := assocErase r.entries key })
  else
    (false, r)

/-- `Registry.unregister_mod_entries`: delete every still-present key the mod
ever registered, then drop the mod's tracking list. -/
def Registry.unregister_mod_entries (r : RegistryState α) (mod_name : String) :
    RegistryState α :=
  match assocLookup r.mod_entries mod_name with
  | none => r
  | some keys =>
    { r with
      entries := keys.foldl
        (fun es k => if assocHas es k then assocErase es k else es) r.entries,
      mod_entries := assocErase r.mod_entries mod_name }

/-- Registry operations, for quantifying over call sequences. -/
inductive RegOp (α : Type) where
  | reg (key : String) (value : α) (mod_name : String)
  | unreg (key : String)

/-- Apply one registry operation. -/
def applyRegOp (r : RegistryState α) : RegOp α → RegistryState α
  | .reg k v m => (Registry.register r k v m).2
  | .unreg k => (Registry.unregister r k).2

/-- Apply a sequence of registry operations. -/
def applyRegOps (r : RegistryState α) (ops : List (RegOp α)) : RegistryState α :=
  ops.foldl applyRegOp r

/-- The keys mod `A` registers over an operation sequence, in order
(with multiplicity, exactly as `mod_entries` accumulates them). -/
def keysRegisteredBy (A : String) : List (RegOp α) → List String
  | [] => []
  | .reg k _ m :: rest =>
    if m = A then k :: keysRegisteredBy A rest else keysRegisteredBy A rest
  | .unreg _ :: rest => keysRegisteredBy A rest

/-! ## `mod_manager.py` — namespace normalization and discovery bookkeeping -/

/-- `MOD_NAMESPACE_RULES` from `config/constants.py`. -/
def RESERVED_NAMES : List String := ["core", "base", "system", "builtin"]
def VALID_CHARS : String := "abcdefghijklmnopqrstuvwxyz0123456789_"
def NAMESPACE_MAX_LENGTH : Nat := 32

/-- `ModInfo._validate_namespace`: lowercase (per character, which agrees
with `str.lower` on the ASCII names at issue), replace characters outside
`VALID_CHARS` by an underscore, prepend `mod_` when the result is a reserved
name, truncate to 32 characters. -/
def validate_namespace (name : String) : String :=
  let ns := String.mk (name.toList.map
    (fun c =>
      let c := c.toLower
      if VALID_CHARS.toList.contains c then c else '_'))
  let ns := if RESERVED_NAMES.contains ns then "mod_" ++ ns else ns
  if ns.length > NAMESPACE_MAX_LENGTH then
    String.mk (ns.toList.take NAMESPACE_MAX_LENGTH)
  else ns

/-- The discovery loop's bookkeeping step
`self.discovered_mods[mod_info.namespace] = mod_info`, with the `ModInfo`
abbreviated to the declared mod name it was built from (the only field the
uniqueness claim needs to tell the two colliding mods apart). -/
def discoverInsert (d : List (String × String)) (mod_declared_name : String) :
    List (String × String) :=
  assocSet d (validate_namespace mod_declared_name) mod_declared_name

/-- Discovery of a batch of manifests with the given declared names, in scan
order, into an initially cleared `discovered_mods`. -/
def discoverFold (names : List String) : List (String × String) :=
  names.foldl discoverInsert []

/-! ## `mod_manager.py` — `resolve_dependencies`

The resolver only reads each discovered mod's namespace and `dependencies`
mapping, so the discovered set is embedded as an insertion-ordered assoc list
from namespace to dependency list. Dependency kinds are the literal strings
of `MOD_DEPENDENCY_TYPES`. -/

def DEP_REQUIRED : String := "hard_dependency"
def DEP_OPTIONAL : String := "soft_dependency"
def DEP_INCOMPATIBLE : String := "conflict"
def DEP_BEFORE : String := "load_order_before"
def DEP_AFTER : String := "load_order_after"

/-- `self.discovered_mods`, restricted to the fields `resolve_dependencies`
reads: namespace ↦ `dependencies` (dep namespace ↦ dep-type string). -/
abbrev Discovered := List (String × List (String × String))

/-- The `edges` dict: node ↦ list of nodes appended by
`edges.setdefault(...).append(...)`. -/
abbrev Edges := List (String × List String)

/-- `edges.setdefault(k, []).append(v)`. -/
def edgesAppend : Edges → String → String → Edges
  | [], k, v => [(k, [v])]
  | (k', l) :: rest, k, v =>
    if k' = k then (k', l ++ [v]) :: rest else (k', l) :: edgesAppend rest k v

/-- `edges.get(k, [])`. -/
def edgesGet (es : Edges) (k : String) : List String :=
  (assocLookup es k).getD []

/-- `{name: [] for name in self.discovered_mods}`. -/
def edgesInit (d : Discovered) : Edges := d.map (fun p => (p.1, []))

/-- `dep_name in self.discovered_mods`. -/
def memberKeys (d : Discovered) (n : String) : Bool := (assocLookup d n).isSome

/-- The message of the `ValueError` raised for a missing `REQUIRED`
dependency. -/
def missingReqMsg (mod_name dep_name : String) : String :=
  s!"Required dependency {dep_name} not found for mod {mod_name}"

/-- The message of the `ValueError` raised on a cycle. -/
def cycleMsg (node : String) : String :=
  s!"Circular dependency detected involving {node}"

/-- The inner loop of the edge-building phase: process one mod's
`dependencies` items in order. `REQUIRED` raises when the dependency is not
discovered and otherwise, like `AFTER`, adds an edge dependency → dependent;
`BEFORE` adds an edge dependent → named mod; other kinds add nothing. -/
def addModEdges (dsc : Discovered) (mod_name : String) :
    List (String × String) → Edges → Except String Edges
  | [], es => .ok es
  | (dep_name, dep_type) :: rest, es =>
    if dep_type = DEP_REQUIRED then
      if memberKeys dsc dep_name then
        addModEdges dsc mod_name rest (edgesAppend es dep_name mod_name)
      else
        .error (missingReqMsg mod_name dep_name)
    else if dep_type = DEP_AFTER then
      addModEdges dsc mod_name rest (edgesAppend es dep_name mod_name)
    else if dep_type = DEP_BEFORE then
      addModEdges dsc mod_name rest (edgesAppend es mod_name dep_name)
    else
      addModEdges dsc mod_name rest es

/-- The outer loop of the edge-building phase. -/
def buildEdgesAux (dsc : Discovered) : Discovered → Edges → Except String Edges
  | [], es => .ok es
  | (mod_name, deps) :: rest, es =>
    match addModEdges dsc mod_name deps es with
    | .error e => .error e
    | .ok es' => buildEdgesAux dsc rest es'

/-- Build the full `edges` dict (or raise on a missing `REQUIRED`
dependency). -/
def buildEdges (dsc : Discovered) : Except String Edges :=
  buildEdgesAux dsc dsc (edgesInit dsc)

/-- The recursive `visit` of the depth-first sort. `temp` is the current DFS
stack, the state is `(visited, load_order)`; a node found on the stack raises
the cycle error, an already-visited node returns unchanged, otherwise the
node's successors are visited and the node is appended to `load_order`
(postorder, exactly as in the source — the list is never reversed).
The fuel argument only bounds the recursion depth; it strictly exceeds the
number of distinct nodes reachable (every key plus every successor entry),
while the depth of nested `visit` calls is at most the number of distinct
nodes on the stack plus one, so the fuel branch is unreachable. -/
def visit (es : Edges) : Nat → List String → String →
    List String × List String → Except String (List String × List String)
  | 0, _, _, _ => .error "recursion limit exceeded"
  | fuel + 1, temp, node, st =>
    if temp.contains node then
      .error (cycleMsg node)
    else if st.1.contains node then
      .ok st
    else do
      let st' ← (edgesGet es node).foldlM
        (fun st' nxt => visit es fuel (node :: temp) nxt st') st
      .ok (node :: st'.1, st'.2 ++ [node])

/-- Fuel that strictly exceeds the number of distinct nodes in the graph. -/
def dfsFuel (es : Edges) : Nat :=
  es.foldl (fun a p => a + p.2.length + 1) 1

/-- The last-write-wins index dict `{name: i for i, name in enumerate(l)}`. -/
def buildIndex (l : List String) : List (String × Nat) :=
  (l.enum).foldl (fun m p => assocSet m p.2 p.1) []

/-- `ModManager.resolve_dependencies`: build edges, depth-first sort, then,
when a non-empty `preferred_order` is supplied, re-sort the result by
position in it (absent mods keyed past the end, CPython stable sort) and keep
that candidate unless some successor of a node sits after the node in it
(`pos.get(dep, -1) > pos[mod]`), in which case fall back to the DFS order. -/
def resolve_dependencies (dsc : Discovered) (preferred_order : Option (List String)) :
    Except String (List String) := do
  let es ← buildEdges dsc
  let st ← dsc.foldlM
    (fun st p => if st.1.contains p.1 then .ok st else visit es (dfsFuel es) [] p.1 st)
    (([], []) : List String × List String)
  let load_order := st.2
  let pref := preferred_order.getD []
  if pref.isEmpty then
    .ok load_order
  else
    let oi := buildIndex pref
    let key : String → Nat := fun n => (assocLookup oi n).getD oi.length
    let candidate := stableSort (fun a b => key a ≤ key b) load_order
    let pos := buildIndex candidate
    let posGet : String → Int := fun x =>
      match assocLookup pos x with
      | some i => (i : Int)
      | none => -1
    let violated := candidate.any
      (fun m => (edgesGet es m).any (fun dep => posGet dep > posGet m))
    .ok (if violated then load_order else candidate)

/-! ## `mod_manager.py` — `load_mod` / `unload_mod` lifecycle

A discovered mod is a `ModInfo` aliased by both `discovered_mods` and
`loaded_mods`; the model keeps the single authoritative copy in
`discovered_mods` and lets `loaded_mods` hold the names. The behaviour of the
mod's script file and entry class (does `scripts/init.py` exist, does the
module define `Mod`, do its hooks raise?) is fixed per mod and recorded in
the same structure as the two mutable fields `loaded` / `mod_instance`. -/

def MAX_MODS_LOADED : Nat := 50

/-- One discovered mod: static script/class behaviour plus the two fields
`load_mod`/`unload_mod` mutate. `mod_instance` is an opaque handle — only
null vs. non-null matters. -/
structure ModState where
  has_init_script : Bool
  exec_raises : Bool
  has_mod_class : Bool
  ctor_raises : Bool
  init_raises : Bool
  has_cleanup : Bool
  cleanup_raises : Bool
  loaded : Bool
  mod_instance : Option Unit
  deriving DecidableEq

/-- A freshly discovered mod with the given behaviour flags
(`loaded = False`, `mod_instance = None`, as set by `ModInfo.__init__`). -/
def ModState.fresh (script exec_r cls ctor_r init_r clean clean_r : Bool) : ModState :=
  ⟨script, exec_r, cls, ctor_r, init_r, clean, clean_r, false, none⟩

/-- `ModManager` state for the lifecycle operations: the discovered map, the
names in `loaded_mods`, and the `mods.<namespace>` keys in `sys.modules`. -/
structure ManagerState where
  discovered_mods : List (String × ModState)
  loaded_mods : List String
  sys_modules : List String
  deriving DecidableEq

/-- The manager right after a discovery pass over mods with the given
namespaces and behaviours: `ModInfo.__init__` sets `loaded = False` and
`mod_instance = None` on every freshly parsed descriptor, and nothing is
loaded yet. -/
def ModState.freshen (s : ModState) : ModState :=
  { s with loaded := false, mod_instance := none }

def ManagerState.ofDiscovery (mods : List (String × ModState)) : ManagerState :=
  ⟨mods.map (fun p => (p.1, ModState.freshen p.2)), [], []⟩

/-- `ModManager.load_mod`. Checks in source order: unknown name, already
loaded, mod cap, missing init script; then module execution (cached in
`sys.modules`; an exception removes the cache entry and fails), optional
`Mod` class instantiation (`mod_info.mod_instance` is assigned before
`initialize()` is called, so a raising `initialize` leaves the handle set),
then `loaded = True` and insertion into `loaded_mods`. Asset registration
and the `mod.load` emit sit in their own `try`/`except` blocks and do not
affect this state. -/
def load_mod (m : ManagerState) (mod_name : String) : Bool × ManagerState :=
  match assocLookup m.discovered_mods mod_name with
  | none => (false, m)
  | some info =>
    if m.loaded_mods.contains mod_name then (true, m)
    else if MAX_MODS_LOADED ≤ m.loaded_mods.length then (false, m)
    else if ¬ info.has_init_script then (false, m)
    else
      let wasCached := m.sys_modules.contains mod_name
      let m1 := { m with sys_modules :=
        if wasCached then m.sys_modules else m.sys_modules ++ [mod_name] }
      if ¬ wasCached ∧ info.exec_raises then
        -- exec_module raised: caught; module removed from sys.modules
        (false, { m1 with sys_modules := m1.sys_modules.erase mod_name })
      else if info.has_mod_class then
        if info.ctor_raises then
          -- Mod(mod_info) raised before the assignment: caught
          (false, { m1 with sys_modules := m1.sys_modules.erase mod_name })
        else
          let info1 := { info with mod_instance := some () }
          let m2 := { m1 with
            discovered_mods := assocSet m1.discovered_mods mod_name info1 }
          if info.init_raises then
            -- initialize() raised after the assignment: caught;
            -- mod_instance stays set, loaded stays false
            (false, { m2 with sys_modules := m2.sys_modules.erase mod_name })
          else
            let info2 := { info1 with loaded := true }
            (true, { m2 with
              discovered_mods := assocSet m2.discovered_mods mod_name info2,
              loaded_mods := m2.loaded_mods ++ [mod_name] })
      else
        -- no Mod class: getattr returned None, instantiation skipped entirely
        let info2 := { info with loaded := true }
        (true, { m1 with
          discovered_mods := assocSet m1.discovered_mods mod_name info2,
          loaded_mods := m1.loaded_mods ++ [mod_name] })

/-- `ModManager.unload_mod`. Not-loaded names fail immediately. The cleanup
hook runs inside the same `try` as the bookkeeping removal: when it raises,
the `except` block returns `False` with the mod still recorded as loaded.
Otherwise the mod is removed from `loaded_mods`, its flags are cleared and
its module is dropped from `sys.modules` (`mod.unload` emit has its own
`try`). -/
def unload_mod (m : ManagerState) (mod_name : String) : Bool × ManagerState :=
  if ¬ m.loaded_mods.contains mod_name then (false, m)
  else
    match assocLookup m.discovered_mods mod_name with
    | none => (false, m)
    | some info =>
      if info.mod_instance.isSome ∧ info.has_cleanup ∧ info.cleanup_raises then
        (false, m)
      else
        let info1 := { info with loaded := false, mod_instance := none }
        (true,
          { discovered_mods := assocSet m.discovered_mods mod_name info1,
            loaded_mods := m.loaded_mods.erase mod_name,
            sys_modules := m.sys_modules.erase mod_name })

/-- A lifecycle operation. -/
inductive LifeOp where
  | load (mod_name : String)
  | unload (mod_name : String)

/-- Apply a sequence of `load_mod`/`unload_mod` calls. -/
def applyLifeOps (m : ManagerState) (ops : List LifeOp) : ManagerState :=
  ops.foldl
    (fun m op =>
      match op with
      | .load n => (load_mod m n).2
      | .unload n => (unload_mod m n).2)
    m

/-! ## `asset_manager.py` — JSON model, `_deep_merge`, `merge_configs` -/

/- JSON values as far as config merging observes them: scalars (numbers and
strings) and string-keyed objects. Objects carry their own field-list type
so that all recursion stays structural. -/
mutual

inductive JVal where
  | num (n : Int)
  | str (s : String)
  | obj (fields : JFields)

inductive JFields where
  | nil
  | cons (key : String) (val : JVal) (rest : JFields)

end

/-- Dict lookup on JSON object fields. -/
def jLookup : JFields → String → Option JVal
  | .nil, _ => none
  | .cons k v rest, key => if k = key then some v else jLookup rest key

/-- Dict assignment on JSON object fields (replace in place or append). -/
def jSet : JFields → String → JVal → JFields
  | .nil, key, v => .cons key v .nil
  | .cons k v' rest, key, v =>
    if k = key then .cons k v rest else .cons k v' (jSet rest key v)

/-- `True` for the empty object (Python falsiness of `{}`). -/
def JFields.isEmpty : JFields → Bool
  | .nil => true
  | .cons _ _ _ => false

/-- `AssetManager._deep_merge`: `result = base.copy()`, then each overlay
item either merges recursively (when the key maps to dicts on both sides) or
overwrites. -/
def deep_merge : JFields → JFields → JFields
  | base, .nil => base
  | base, .cons k v rest =>
    let newV : JVal :=
      match jLookup base k, v with
      | some (.obj b), .obj o => .obj (deep_merge b o)
      | _, _ => v
    deep_merge (jSet base k newV) rest

/-- A model filesystem assigning parsed JSON to the file paths the configs
live at (`json.load` of `open(asset.path)`). -/
abbrev JsonFs := List (String × JVal)

/-- `AssetManager.merge_configs`: collect the entries of the *primary*
`assets` table whose logical name is `config/<name>.json` and whose type is
`config`, sort ascending by priority (stable), fold `_deep_merge` over their
parsed contents (a file that fails to load or parse as a dict is caught and
skipped), and return `None` for an empty result. -/
def merge_configs (am : AssetManagerState) (fs : JsonFs) (config_name : String) :
    Option JFields :=
  let pattern := s!"config/{config_name}.json"
  let matching := (am.assets.map (·.2)).filter
    (fun a => a.name = pattern ∧ a.asset_type = "config")
  let sorted := stableSort (fun a b => a.priority ≤ b.priority) matching
  let merged := sorted.foldl
    (fun acc a =>
      match assocLookup fs a.path with
      | some (JVal.obj cfg) => deep_merge acc cfg
      | _ => acc)
    JFields.nil
  if merged.isEmpty then none else some merged

/-! ## Observation devices and concrete inputs used by the theorems -/

/-- Replace a handler's callback by one that never raises but leaves the
payload and cancellation behaviour untouched — the device used to state that
handler exceptions are caught and have no effect on dispatch. -/
def stripRaises (h : EventHandler) : EventHandler :=
  { h with callback := fun e => { h.callback e with raises := false } }

/-- Two discovered mods where `b` declares a `REQUIRED` dependency on `a`
(its only dependency edge is a → b, "a must load before b"). -/
def modsReqPair : Discovered := [("a", []), ("b", [("a", DEP_REQUIRED)])]

/-- `modsReqPair` plus an unrelated third mod `c`. -/
def modsReqTriple : Discovered :=
  [("a", []), ("b", [("a", DEP_REQUIRED)]), ("c", [])]

/-- Two mods whose `BEFORE` hints form a cycle x → y → x. -/
def modsBeforeCycle : Discovered :=
  [("x", [("y", DEP_BEFORE)]), ("y", [("x", DEP_BEFORE)])]

/-- A mod requiring a namespace that was never discovered. -/
def modsMissingReq : Discovered := [("b", [("a", DEP_REQUIRED)])]

/-- Monitor-band handler callback: observes, neither cancels nor raises. -/
def cbObserve : Event → CbEffect := fun ev => ⟨ev.data, false, false⟩

/-- A callback that cancels the event and then raises. -/
def cbCancelThenRaise : Event → CbEffect := fun ev => ⟨ev.data, true, true⟩

/-- The registration sequence of the spec's worked example: one HIGH handler
that cancels (and then throws), one NORMAL handler, one MONITOR handler, all
for `game.start`. -/
def regsExample : List RegReq :=
  [⟨"game.start", cbCancelThenRaise, PRIORITY_HIGH, "mod_high"⟩,
   ⟨"game.start", cbObserve, PRIORITY_NORMAL, "mod_normal"⟩,
   ⟨"game.start", cbObserve, PRIORITY_MONITOR, "mod_monitor"⟩]

/-- Two registrations of the logical asset `config/x.json` by two mods at
priorities 100 and 500. -/
def cfgAssetLow : AssetInfo := ⟨"config/x.json", "mods/m1/assets/config/x.json", "m1", 100, "config"⟩
def cfgAssetHigh : AssetInfo := ⟨"config/x.json", "mods/m2/assets/config/x.json", "m2", 500, "config"⟩

/-- The asset manager after both config registrations. -/
def amTwoConfigs : AssetManagerState :=
  register_asset (register_asset AssetManager.empty cfgAssetLow) cfgAssetHigh

/-- Contents of the two config files: the same scalar key with different
values. -/
def fsTwoConfigs : JsonFs :=
  [("mods/m1/assets/config/x.json", .obj (.cons "k" (.num 1) .nil)),
   ("mods/m2/assets/config/x.json", .obj (.cons "k" (.num 2) .nil))]

/-- One discovered mod whose `scripts/init.py` exists and executes fine but
defines no `Mod` class. -/
def modsNoClass : List (String × ModState) :=
  [("a", ModState.fresh true false false false false false false)]

/-- One discovered mod with a `Mod` class whose `cleanup` hook raises. -/
def modsRaisingCleanup : List (String × ModState) :=
  [("a", ModState.fresh true false true false false true true)]

/-- The manager after loading the class-less mod. -/
def mgrNoClassLoaded : ManagerState :=
  applyLifeOps (ManagerState.ofDiscovery modsNoClass) [.load "a"]

/-- The manager after loading the mod with the raising cleanup hook. -/
def mgrRaisingCleanupLoaded : ManagerState :=
  applyLifeOps (ManagerState.ofDiscovery modsRaisingCleanup) [.load "a"]

/-- The `ModState` of that loaded mod (handle set, flag set). -/
def raisingCleanupLoadedState : ModState :=
  ⟨true, false, true, false, false, true, true, true, some ()⟩

/-- Registry history: mod A registers key `k`, then mod B overwrites it. -/
def regOpsOverwrite : List (RegOp Nat) :=
  [.reg "k" 1 "A", .reg "k" 2 "B"]

/-- Two registrations of the same logical asset name, in sequence, on a fresh
asset manager. -/
def registerPair (a1 a2 : AssetInfo) : AssetManagerState :=
  register_asset (register_asset AssetManager.empty a1) a2

/-- The spec's worked asset-conflict example: `tilesets/x.png` from two mods
at priorities 100 and 500. -/
def tileAssetLow : AssetInfo :=
  ⟨"tilesets/x.png", "mods/m1/assets/tilesets/x.png", "m1", 100, "tileset"⟩
def tileAssetHigh : AssetInfo :=
  ⟨"tilesets/x.png", "mods/m2/assets/tilesets/x.png", "m2", 500, "tileset"⟩

/-! ## Predicates used by the theorems -/

/-- The keys of an assoc list, for uniqueness statements. -/
def assocKeys (d : List (κ × ν)) : List κ := d.map Prod.fst

/-- A dependency list declares a `REQUIRED` dependency on a namespace absent
from the discovered set. -/
def HasMissingReq (dsc : Discovered) (deps : List (String × String)) : Prop :=
  ∃ p ∈ deps, p.2 = DEP_REQUIRED ∧ memberKeys dsc p.1 = false

/-- Handler ordering by priority, as `EventHandler.__lt__`-based sorting
maintains it. -/
def handlerLE (a b : EventHandler) : Prop := a.priority ≤ b.priority

/-- The part of the claimed consistency invariant that the code maintains:
`loaded_mods` holds no duplicates and a discovered mod's `loaded` flag is set
exactly when its name is in `loaded_mods`. -/
def LoadedInv (m : ManagerState) : Prop :=
  m.loaded_mods.Nodup ∧
  ∀ n info, assocLookup m.discovered_mods n = some info →
    (info.loaded = true ↔ n ∈ m.loaded_mods)

/-! ## Shared lemmas about the dict model -/

theorem assocLookup_assocSet (d : List (κ × ν)) (k : κ) (v : ν) (k' : κ) :
    assocLookup (assocSet d k v) k' = if k = k' then some v else assocLookup d k' := by
  induction d with
  | nil => simp [assocSet, assocLookup]
  | cons p rest ih =>
    obtain ⟨k0, v0⟩ := p
    by_cases h0 : k0 = k <;> by_cases h1 : k = k' <;>
      simp_all [assocSet, assocLookup]

theorem assocLookup_assocErase_ne (d : List (κ × ν)) (k k' : κ) (h : k ≠ k') :
    assocLookup (assocErase d k) k' = assocLookup d k' := by
  induction d with
  | nil => rfl
  | cons p rest ih =>
    obtain ⟨k0, v0⟩ := p
    by_cases h0 : k0 = k <;> simp_all [assocErase, assocLookup]

theorem assocKeys_assocSet (d : List (κ × ν)) (k : κ) (v : ν) :
    assocKeys (assocSet d k v) =
      if (assocLookup d k).isSome then assocKeys d else assocKeys d ++ [k] := by
  induction d with
  | nil => simp [assocSet, assocKeys, assocLookup]
  | cons p rest ih =>
    obtain ⟨k0, v0⟩ := p
    by_cases h0 : k0 = k <;> by_cases h1 : (assocLookup rest k).isSome <;>
      simp_all [assocSet, assocKeys, assocLookup]

theorem assocLookup_isSome_iff (d : List (κ × ν)) (k : κ) :
    (assocLookup d k).isSome ↔ k ∈ assocKeys d := by
  induction d with
  | nil => simp [assocLookup, assocKeys]
  | cons p rest ih =>
    obtain ⟨k0, v0⟩ := p
    by_cases h0 : k0 = k
    · subst h0
      simp [assocLookup, assocKeys]
    · simp [assocLookup, assocKeys, h0, Ne.symm h0, ih]

theorem assocLookup_eq_none_of_not_mem (d : List (κ × ν)) (k : κ)
    (h : k ∉ assocKeys d) : assocLookup d k = none := by
  have hn := (assocLookup_isSome_iff d k).not.mpr h
  exact Option.not_isSome_iff_eq_none.mp hn

theorem assocKeys_nodup_assocSet (d : List (κ × ν)) (k : κ) (v : ν)
    (h : (assocKeys d).Nodup) : (assocKeys (assocSet d k v)).Nodup := by
  rw [assocKeys_assocSet]
  by_cases hs : (assocLookup d k).isSome
  · simpa [hs] using h
  · have hk : k ∉ assocKeys d := fun hm => hs ((assocLookup_isSome_iff d k).mpr hm)
    simp [hs, List.nodup_append, h, hk]

theorem assocKeys_assocErase_sublist (d : List (κ × ν)) (k : κ) :
    List.Sublist (assocKeys (assocErase d k)) (assocKeys d) := by
  induction d with
  | nil => simp [assocErase, assocKeys]
  | cons p rest ih =>
    obtain ⟨k0, v0⟩ := p
    by_cases h0 : k0 = k
    · simp [assocErase, assocKeys, h0]
    · simpa [assocErase, assocKeys, h0] using ih.cons₂ k0

theorem assocKeys_nodup_assocErase (d : List (κ × ν)) (k : κ)
    (h : (assocKeys d).Nodup) : (assocKeys (assocErase d k)).Nodup :=
  h.sublist (assocKeys_assocErase_sublist d k)

theorem assocLookup_assocErase_self (d : List (κ × ν)) (k : κ)
    (h : (assocKeys d).Nodup) : assocLookup (assocErase d k) k = none := by
  induction d with
  | nil => rfl
  | cons p rest ih =>
    obtain ⟨k0, v0⟩ := p
    simp only [assocKeys, List.map_cons, List.nodup_cons] at h
    by_cases h0 : k0 = k
    · subst h0
      simpa [assocErase] using assocLookup_eq_none_of_not_mem rest k0 h.1
    · simp [assocErase, assocLookup, h0, ih h.2]

theorem assocLookup_map_val (f : ν → ν) (d : List (κ × ν)) (k : κ) :
    assocLookup (d.map (fun p => (p.1, f p.2))) k = (assocLookup d k).map f := by
  induction d with
  | nil => rfl
  | cons p rest ih =>
    obtain ⟨k0, v0⟩ := p
    by_cases h0 : k0 = k <;> simp [assocLookup, h0, ih]

/-! ## Missing-REQUIRED-dependency lemmas (claim C3) -/

theorem addModEdges_error_of_missing (dsc : Discovered) (m : String)
    (deps : List (String × String)) (h : HasMissingReq dsc deps) (es : Edges) :
    ∃ d, (d, DEP_REQUIRED) ∈ deps ∧ memberKeys dsc d = false ∧
      addModEdges dsc m deps es = .error (missingReqMsg m d) := by
  induction deps generalizing es with
  | nil => obtain ⟨p, hp, _⟩ := h; simp at hp
  | cons q rest ih =>
    obtain ⟨d0, t0⟩ := q
    by_cases ht : t0 = DEP_REQUIRED
    · subst ht
      by_cases hm : memberKeys dsc d0
      · have h' : HasMissingReq dsc rest := by
          obtain ⟨p, hp, hreq, hmiss⟩ := h
          rcases List.mem_cons.mp hp with heq | htail
          · subst heq; simp [hm] at hmiss
          · exact ⟨p, htail, hreq, hmiss⟩
        obtain ⟨d, hd, hdm, herr⟩ := ih h' (edgesAppend es d0 m)
        exact ⟨d, List.mem_cons_of_mem _ hd, hdm, by simpa [addModEdges, hm] using herr⟩
      · refine ⟨d0, List.mem_cons_self _ _, by simpa using hm, ?_⟩
        simp [addModEdges, hm]
    · have h' : HasMissingReq dsc rest := by
        obtain ⟨p, hp, hreq, hmiss⟩ := h
        rcases List.mem_cons.mp hp with heq | htail
        · subst heq; exact absurd hreq ht
        · exact ⟨p, htail, hreq, hmiss⟩
      by_cases ha : t0 = DEP_AFTER
      · obtain ⟨d, hd, hdm, herr⟩ := ih h' (edgesAppend es d0 m)
        exact ⟨d, List.mem_cons_of_mem _ hd, hdm, by simpa [addModEdges, ht, ha] using herr⟩
      · by_cases hb : t0 = DEP_BEFORE
        · obtain ⟨d, hd, hdm, herr⟩ := ih h' (edgesAppend es m d0)
          exact ⟨d, List.mem_cons_of_mem _ hd, hdm,
            by simpa [addModEdges, ht, ha, hb] using herr⟩
        · obtain ⟨d, hd, hdm, herr⟩ := ih h' es
          exact ⟨d, List.mem_cons_of_mem _ hd, hdm,
            by simpa [addModEdges, ht, ha, hb] using herr⟩

theorem addModEdges_ok_of_no_missing (dsc : Discovered) (m : String)
    (deps : List (String × String)) (h : ¬ HasMissingReq dsc deps) (es : Edges) :
    ∃ es', addModEdges dsc m deps es = .ok es' := by
  induction deps generalizing es with
  | nil => exact ⟨es, rfl⟩
  | cons q rest ih =>
    obtain ⟨d0, t0⟩ := q
    have h' : ¬ HasMissingReq dsc rest := fun ⟨p, hp, hreq, hmiss⟩ =>
      h ⟨p, List.mem_cons_of_mem _ hp, hreq, hmiss⟩
    by_cases ht : t0 = DEP_REQUIRED
    · subst ht
      have hm : memberKeys dsc d0 = true := by
        by_contra hm
        exact h ⟨(d0, DEP_REQUIRED), List.mem_cons_self _ _, rfl, by simpa using hm⟩
      obtain ⟨es', hes⟩ := ih h' (edgesAppend es d0 m)
      exact ⟨es', by simpa [addModEdges, hm] using hes⟩
    · by_cases ha : t0 = DEP_AFTER
      · obtain ⟨es', hes⟩ := ih h' (edgesAppend es d0 m)
        exact ⟨es', by simpa [addModEdges, ht, ha] using hes⟩
      · by_cases hb : t0 = DEP_BEFORE
        · obtain ⟨es', hes⟩ := ih h' (edgesAppend es m d0)
          exact ⟨es', by simpa [addModEdges, ht, ha, hb] using hes⟩
        · obtain ⟨es', hes⟩ := ih h' es
          exact ⟨es', by simpa [addModEdges, ht, ha, hb] using hes⟩

theorem buildEdgesAux_error_of_missing (dsc : Discovered) :
    ∀ (todo : Discovered) (es : Edges),
    (∃ q ∈ todo, HasMissingReq dsc q.2) →
    ∃ m deps d, (m, deps) ∈ todo ∧ (d, DEP_REQUIRED) ∈ deps ∧
      memberKeys dsc d = false ∧
      buildEdgesAux dsc todo es = .error (missingReqMsg m d) := by
  intro todo
  induction todo with
  | nil => intro es h; obtain ⟨q, hq, _⟩ := h; simp at hq
  | cons q rest ih =>
    intro es h
    obtain ⟨m0, deps0⟩ := q
    by_cases hm : HasMissingReq dsc deps0
    · obtain ⟨d, hd, hdm, herr⟩ := addModEdges_error_of_missing dsc m0 deps0 hm es
      exact ⟨m0, deps0, d, List.mem_cons_self _ _, hd, hdm,
        by simp [buildEdgesAux, herr]⟩
    · obtain ⟨es', hok⟩ := addModEdges_ok_of_no_missing dsc m0 deps0 hm es
      have h' : ∃ q ∈ rest, HasMissingReq dsc q.2 := by
        obtain ⟨p, hp, hmiss⟩ := h
        rcases List.mem_cons.mp hp with heq | htail
        · subst heq; exact absurd hmiss hm
        · exact ⟨p, htail, hmiss⟩
      obtain ⟨m, deps, d, hmem, hdep, hdm, herr⟩ := ih es' h'
      exact ⟨m, deps, d, List.mem_cons_of_mem _ hmem, hdep, hdm,
        by simp [buildEdgesAux, hok, herr]⟩

/-! ## Event-dispatch lemmas (claim C5) -/

theorem mem_insortHandler (h y : EventHandler) (hs : List EventHandler) :
    y ∈ insortHandler h hs ↔ y = h ∨ y ∈ hs := by
  induction hs with
  | nil => simp [insortHandler]
  | cons x xs ih =>
    by_cases hp : h.priority < x.priority
    · simp [insortHandler, hp, List.mem_cons]
      try tauto
    · simp [insortHandler, hp, List.mem_cons, ih]
      try tauto

theorem insortHandler_sorted (h : EventHandler) (hs : List EventHandler)
    (hsort : hs.Pairwise handlerLE) :
    (insortHandler h hs).Pairwise handlerLE := by
  induction hs with
  | nil => simp [insortHandler, List.pairwise_singleton]
  | cons x xs ih =>
    rcases List.pairwise_cons.mp hsort with ⟨hx, hxs⟩
    by_cases hp : h.priority < x.priority
    · rw [insortHandler, if_pos hp]
      refine List.pairwise_cons.mpr ⟨?_, hsort⟩
      intro y hy
      rcases List.mem_cons.mp hy with rfl | hy'
      · exact le_of_lt hp
      · exact le_trans (le_of_lt hp) (hx y hy')
    · rw [insortHandler, if_neg hp]
      refine List.pairwise_cons.mpr ⟨?_, ih hxs⟩
      intro y hy
      rcases (mem_insortHandler h y xs).mp hy with rfl | hy'
      · exact le_of_not_lt hp
      · exact hx y hy'

theorem get_handlers_register (s : EventSystemState) (en : String)
    (cb : Event → CbEffect) (pr : Int) (mn : String) (e : String) :
    get_handlers (register_handler s en cb pr mn).2 e =
      if en = e then insortHandler ⟨cb, pr, mn, en⟩ (get_handlers s en)
      else get_handlers s e := by
  unfold get_handlers register_handler
  rw [assocLookup_assocSet]
  by_cases he : en = e <;> simp [he]

theorem registerAll_sorted_aux :
    ∀ (regs : List RegReq) (s : EventSystemState),
    (∀ e, (get_handlers s e).Pairwise handlerLE) →
    ∀ e, (get_handlers (regs.foldl
      (fun s r => (register_handler s r.event_name r.callback r.priority r.mod_name).2)
      s) e).Pairwise handlerLE := by
  intro regs
  induction regs with
  | nil => intro s hs e; exact hs e
  | cons r rest ih =>
    intro s hs e
    refine ih _ (fun e' => ?_) e
    rw [get_handlers_register]
    by_cases he : r.event_name = e'
    · rw [if_pos he]
      exact insortHandler_sorted _ _ (hs r.event_name)
    · rw [if_neg he]
      exact hs e'

theorem get_handlers_registerAll_sorted (regs : List RegReq) (e : String) :
    (get_handlers (registerAll regs) e).Pairwise handlerLE :=
  registerAll_sorted_aux regs EventSystem.empty
    (fun _ => by simp [get_handlers, EventSystem.empty, assocLookup]) e

theorem dispatchList_append (l1 l2 : List EventHandler) (ev : Event) :
    dispatchList (l1 ++ l2) ev =
      ((dispatchList l2 (dispatchList l1 ev).1).1,
        (dispatchList l1 ev).2 ++ (dispatchList l2 (dispatchList l1 ev).1).2) := by
  induction l1 generalizing ev with
  | nil => simp [dispatchList]
  | cons h rest ih =>
    by_cases hg : ev.cancelled && h.priority != PRIORITY_MONITOR
    · simp [dispatchList, hg, ih]
    · simp [dispatchList, hg, ih]

theorem dispatchList_cancelled_monitors (hs : List EventHandler) (ev : Event)
    (hc : ev.cancelled = true) :
    (dispatchList hs ev).2 =
      (hs.filter (fun h => h.priority == PRIORITY_MONITOR)).map
        (fun h => (h.mod_name, h.priority)) := by
  induction hs generalizing ev with
  | nil => simp [dispatchList]
  | cons h rest ih =>
    by_cases hm : h.priority = PRIORITY_MONITOR
    · have hg : (ev.cancelled && h.priority != PRIORITY_MONITOR) = false := by
        simp [hm]
      have hc2 : (applyCallback h ev).cancelled = true := by
        simp [applyCallback, hc]
      simp [dispatchList, hg, List.filter_cons, hm, ih _ hc2]
    · have hg : (ev.cancelled && h.priority != PRIORITY_MONITOR) = true := by
        simp [hc, hm]
      have hf : (h.priority == PRIORITY_MONITOR) = false := by
        simp [hm]
      simp [dispatchList, hg, List.filter_cons, hf, ih _ hc]

theorem dispatchList_sublist (hs : List EventHandler) (ev : Event) :
    List.Sublist (dispatchList hs ev).2
      (hs.map (fun h => (h.mod_name, h.priority))) := by
  induction hs generalizing ev with
  | nil => simp [dispatchList]
  | cons h rest ih =>
    by_cases hg : ev.cancelled && h.priority != PRIORITY_MONITOR
    · simp only [dispatchList, hg, if_true, List.map_cons]
      exact (ih ev).cons _
    · simp only [dispatchList, hg, if_false, List.map_cons]
      exact (ih (applyCallback h ev)).cons₂ _

theorem dispatchList_stripRaises (hs : List EventHandler) (ev : Event) :
    dispatchList (hs.map stripRaises) ev = dispatchList hs ev := by
  induction hs generalizing ev with
  | nil => rfl
  | cons h rest ih =>
    have hcond : ((stripRaises h).priority != PRIORITY_MONITOR)
        = (h.priority != PRIORITY_MONITOR) := rfl
    have happ : applyCallback (stripRaises h) ev = applyCallback h ev := rfl
    simp only [List.map_cons, dispatchList]
    rw [hcond]
    by_cases hg : ev.cancelled && h.priority != PRIORITY_MONITOR
    · rw [if_pos hg, if_pos hg, ih]
    · rw [if_neg hg, if_neg hg]
      rw [happ, ih]
      rfl

/-! ## Claim C1 — preferred-order reordering -/

/-- C1: the claim states that a `preferred_order` whose induced reordering
violates no dependency edge is returned as the result (preferred order
restricted to discovered mods, then the rest), and that a violating one
falls back to pure topological order. The code does the opposite, because
its DFS postorder is never reversed and its violation check
(`pos.get(dep, -1) > pos[mod]`) therefore treats a *forward*-pointing edge
as a violation: with mods `a`, `b` where b REQUIRES a (only edge a → b), the
dependency-compatible preferred order `[a, b]` is rejected and the DFS order
`[b, a]` returned; with a third independent mod `c`, the preferred order
`[c, b, a]` — which puts the required dependency `a` *after* its dependent
`b` — passes the check and is returned verbatim. -/
theorem c1_preferred_order_inverted :
    resolve_dependencies modsReqPair (some ["a", "b"]) = .ok ["b", "a"] ∧
    resolve_dependencies modsReqTriple (some ["c", "b", "a"]) = .ok ["c", "b", "a"] :=
  ⟨rfl, rfl⟩

/-! ## Claim C2 — topological order and cycle detection -/

/-- C2: the claim states every edge source precedes its target in the
resolved order, and that cyclic graphs raise naming a mod on the cycle. The
cycle half holds, but the order half fails: the DFS appends each node after
its successors and the list is never reversed, so for b REQUIRES a (edge
a → b, and the source comment "A -> B means A must load before B") the
returned order is `[b, a]` — the dependent loads before its required
dependency. -/
theorem c2_postorder_not_reversed :
    resolve_dependencies modsReqPair none = .ok ["b", "a"] ∧
    resolve_dependencies modsBeforeCycle none = .error (cycleMsg "x") :=
  ⟨rfl, rfl⟩

/-! ## Claim C3 — missing REQUIRED dependency -/

/-- C3: whenever some discovered mod declares a `REQUIRED` dependency on a
namespace absent from the discovered set, `resolve_dependencies` raises —
for any `preferred_order` — with the `ValueError` message naming the missing
dependency (and the declaring mod), and consequently produces no load
order. -/
theorem c3_missing_required_raises (dsc : Discovered) (pref : Option (List String))
    (h : ∃ q ∈ dsc, HasMissingReq dsc q.2) :
    ∃ m deps d, (m, deps) ∈ dsc ∧ (d, DEP_REQUIRED) ∈ deps ∧
      memberKeys dsc d = false ∧
      resolve_dependencies dsc pref = .error (missingReqMsg m d) := by
  obtain ⟨m, deps, d, hmem, hdep, hdm, herr⟩ :=
    buildEdgesAux_error_of_missing dsc dsc (edgesInit dsc) h
  refine ⟨m, deps, d, hmem, hdep, hdm, ?_⟩
  unfold resolve_dependencies
  rw [show buildEdges dsc = Except.error (missingReqMsg m d) from herr]
  rfl

/-- Witness for `c3_missing_required_raises`: mod `b` requires the
undiscovered namespace `a`. -/
theorem c3_missing_required_raises_witness :
    ∃ m deps d, (m, deps) ∈ modsMissingReq ∧ (d, DEP_REQUIRED) ∈ deps ∧
      memberKeys modsMissingReq d = false ∧
      resolve_dependencies modsMissingReq none = .error (missingReqMsg m d) :=
  c3_missing_required_raises modsMissingReq none
    ⟨("b", [("a", DEP_REQUIRED)]), by simp [modsMissingReq],
      ("a", DEP_REQUIRED), by simp, rfl, rfl⟩

/-! ## Claim C8 — config merging -/

/-- C8: the claim states `merge_configs` deep-merges *all* registered config
assets of the logical name in ascending priority order, the highest
priority number winning scalar keys. But the function iterates
`self.assets.values()` — the primary one-winner-per-name table — so at most
one file ever matches: with `config/x.json` registered by two mods at
priorities 100 (scalar k = 1) and 500 (scalar k = 2), both contenders are in
the conflicts table, yet the merge result is the winner's `k = 1` alone,
not the claimed last-merged `k = 2`. -/
theorem c8_merge_configs_single_source :
    merge_configs amTwoConfigs fsTwoConfigs "x" = some (.cons "k" (.num 1) .nil) ∧
    assocLookup amTwoConfigs.conflicts "config/x.json" = some [cfgAssetLow, cfgAssetHigh] :=
  ⟨rfl, rfl⟩

/-! ## Claim C4 — asset registration conflict policy -/

/-- C4: when two mods register the same logical asset name, the primary
lookup returns the entry with the strictly lower priority number; on equal
(or higher) priority the incumbent is kept; both entries are recorded in
`get_conflicts`; and `resolve_conflict` with either registering mod's
namespace succeeds and makes that mod's entry the winner. -/
theorem c4_asset_conflict_resolution (a1 a2 : AssetInfo)
    (hname : a1.name = a2.name) (hmods : a1.mod_name ≠ a2.mod_name) :
    (a2.priority < a1.priority →
      get_asset_path (registerPair a1 a2) a1.name = some a2.path) ∧
    (a1.priority ≤ a2.priority →
      get_asset_path (registerPair a1 a2) a1.name = some a1.path) ∧
    assocLookup (get_conflicts (registerPair a1 a2)) a1.name = some [a1, a2] ∧
    ((resolve_conflict (registerPair a1 a2) a1.name a1.mod_name).1 = true ∧
      get_asset_path (resolve_conflict (registerPair a1 a2) a1.name a1.mod_name).2
        a1.name = some a1.path) ∧
    ((resolve_conflict (registerPair a1 a2) a1.name a2.mod_name).1 = true ∧
      get_asset_path (resolve_conflict (registerPair a1 a2) a1.name a2.mod_name).2
        a1.name = some a2.path) := by
  obtain ⟨n1, p1, m1, pr1, t1⟩ := a1
  obtain ⟨n2, p2, m2, pr2, t2⟩ := a2
  simp only at hname hmods
  subst hname
  refine ⟨fun hlt => ?_, fun hle => ?_, ?_, ⟨?_, ?_⟩, ⟨?_, ?_⟩⟩ <;>
    first
    | (simp [registerPair, register_asset, AssetManager.empty, assocLookup, assocSet,
        get_asset_path, get_conflicts, resolve_conflict, hlt])
    | (simp [registerPair, register_asset, AssetManager.empty, assocLookup, assocSet,
        get_asset_path, get_conflicts, resolve_conflict, Int.not_lt.mpr hle])
    | (by_cases hp : pr2 < pr1 <;>
        simp [registerPair, register_asset, AssetManager.empty, assocLookup, assocSet,
          get_asset_path, get_conflicts, resolve_conflict, hp, hmods, Ne.symm hmods])

/-- Witness for `c4_asset_conflict_resolution` at the spec's
`tilesets/x.png` example (priorities 100 and 500, mods `m1` and `m2`). -/
theorem c4_asset_conflict_resolution_witness :
    ((tileAssetHigh.priority < tileAssetLow.priority →
      get_asset_path (registerPair tileAssetLow tileAssetHigh) tileAssetLow.name
        = some tileAssetHigh.path) ∧
    (tileAssetLow.priority ≤ tileAssetHigh.priority →
      get_asset_path (registerPair tileAssetLow tileAssetHigh) tileAssetLow.name
        = some tileAssetLow.path) ∧
    assocLookup (get_conflicts (registerPair tileAssetLow tileAssetHigh))
      tileAssetLow.name = some [tileAssetLow, tileAssetHigh] ∧
    ((resolve_conflict (registerPair tileAssetLow tileAssetHigh) tileAssetLow.name
        tileAssetLow.mod_name).1 = true ∧
      get_asset_path (resolve_conflict (registerPair tileAssetLow tileAssetHigh)
        tileAssetLow.name tileAssetLow.mod_name).2 tileAssetLow.name
        = some tileAssetLow.path) ∧
    ((resolve_conflict (registerPair tileAssetLow tileAssetHigh) tileAssetLow.name
        tileAssetHigh.mod_name).1 = true ∧
      get_asset_path (resolve_conflict (registerPair tileAssetLow tileAssetHigh)
        tileAssetLow.name tileAssetHigh.mod_name).2 tileAssetLow.name
        = some tileAssetHigh.path)) :=
  c4_asset_conflict_resolution tileAssetLow tileAssetHigh rfl (by decide)

/-! ## Claim C5 — single publish: ordering, cancellation, failure isolation -/

/-- C5: for one publish on handlers obtained from any sequence of
registrations, (1) the invoked handlers run in ascending priority order;
(2) splitting the handler list anywhere the event is already cancelled, the
remainder contributes exactly its MONITOR-priority handlers — i.e. from the
moment a handler cancels, every later non-MONITOR handler is skipped while
MONITOR handlers still run; and (3) replacing every callback by one that
never raises (but mutates identically) leaves the dispatch result and the
invoked list unchanged — a raising handler is caught and never prevents a
later handler from being invoked. -/
theorem c5_publish_priority_cancel_isolation (regs : List RegReq) (ename : String)
    (data : Payload) :
    (emit_event (registerAll regs) ename data).2.1.Pairwise
      (fun a b => a.2 ≤ b.2) ∧
    (∀ pre post, get_handlers (registerAll regs) ename = pre ++ post →
      (dispatchList pre ⟨ename, data, false⟩).1.cancelled = true →
      (emit_event (registerAll regs) ename data).2.1 =
        (dispatchList pre ⟨ename, data, false⟩).2 ++
          (post.filter (fun h => h.priority == PRIORITY_MONITOR)).map
            (fun h => (h.mod_name, h.priority))) ∧
    dispatchList ((get_handlers (registerAll regs) ename).map stripRaises)
        ⟨ename, data, false⟩ =
      ((emit_event (registerAll regs) ename data).1,
        (emit_event (registerAll regs) ename data).2.1) := by
  have hinv : (emit_event (registerAll regs) ename data).2.1 =
      (dispatchList (get_handlers (registerAll regs) ename) ⟨ename, data, false⟩).2 :=
    rfl
  refine ⟨?_, ?_, ?_⟩
  · rw [hinv]
    have hsorted := get_handlers_registerAll_sorted regs ename
    have hmap : ((get_handlers (registerAll regs) ename).map
        (fun h => (h.mod_name, h.priority))).Pairwise (fun a b => a.2 ≤ b.2) := by
      rw [List.pairwise_map]
      exact hsorted.imp (fun hab => hab)
    exact hmap.sublist (dispatchList_sublist _ _)
  · intro pre post hsplit hcanc
    rw [hinv, hsplit, dispatchList_append]
    rw [dispatchList_cancelled_monitors post _ hcanc]
  · rw [dispatchList_stripRaises]
    rfl

/-- Witness for `c5_publish_priority_cancel_isolation` at the spec's worked
example — MONITOR (priority -1000) runs first, HIGH (250) cancels and then
throws, and the NORMAL (500) handler is skipped: the invoked list is exactly
the prefix's invocations with no non-MONITOR contribution from the rest. -/
theorem c5_publish_priority_cancel_isolation_witness :
    (emit_event (registerAll regsExample) "game.start" []).2.1 =
      (dispatchList ((get_handlers (registerAll regsExample) "game.start").take 2)
        ⟨"game.start", [], false⟩).2 ++
      (((get_handlers (registerAll regsExample) "game.start").drop 2).filter
        (fun h => h.priority == PRIORITY_MONITOR)).map
          (fun h => (h.mod_name, h.priority)) :=
  (c5_publish_priority_cancel_isolation regsExample "game.start" []).2.1
    ((get_handlers (registerAll regsExample) "game.start").take 2)
    ((get_handlers (registerAll regsExample) "game.start").drop 2)
    (List.take_append_drop 2 _).symm rfl

/-! ## Claim C6 — loaded flag / instance handle / loaded set consistency -/

theorem assocSet_assocSet (d : List (κ × ν)) (k : κ) (v v' : ν) :
    assocSet (assocSet d k v) k v' = assocSet d k v' := by
  induction d with
  | nil => simp [assocSet]
  | cons p rest ih =>
    obtain ⟨k0, v0⟩ := p
    by_cases h0 : k0 = k <;> simp [assocSet, h0, ih]

theorem loadedInv_same (m : ManagerState) (sys : List String) (h : LoadedInv m) :
    LoadedInv ⟨m.discovered_mods, m.loaded_mods, sys⟩ := ⟨h.1, h.2⟩

theorem loadedInv_flag_kept (m : ManagerState) (name : String) (info info₁ : ModState)
    (sys : List String) (hlk : assocLookup m.discovered_mods name = some info)
    (hfl : info₁.loaded = info.loaded) (h : LoadedInv m) :
    LoadedInv ⟨assocSet m.discovered_mods name info₁, m.loaded_mods, sys⟩ := by
  refine ⟨h.1, fun n info' hl' => ?_⟩
  rw [assocLookup_assocSet] at hl'
  by_cases hn : name = n
  · rw [if_pos hn] at hl'
    cases hl'
    rw [hfl]
    exact hn ▸ h.2 name info hlk
  · rw [if_neg hn] at hl'
    exact h.2 n info' hl'

theorem loadedInv_load_success (m : ManagerState) (name : String) (info₂ : ModState)
    (sys : List String) (hnm : name ∉ m.loaded_mods) (hfl : info₂.loaded = true)
    (h : LoadedInv m) :
    LoadedInv ⟨assocSet m.discovered_mods name info₂, m.loaded_mods ++ [name], sys⟩ := by
  refine ⟨?_, fun n info' hl' => ?_⟩
  · simpa [List.nodup_append, hnm] using h.1
  · rw [assocLookup_assocSet] at hl'
    rw [List.mem_append, List.mem_singleton]
    by_cases hn : name = n
    · rw [if_pos hn] at hl'
      cases hl'
      simp [hfl, hn.symm]
    · rw [if_neg hn] at hl'
      have hiff := h.2 n info' hl'
      constructor
      · intro hld
        exact Or.inl (hiff.mp hld)
      · rintro (hmm | heq)
        · exact hiff.mpr hmm
        · exact absurd heq.symm hn

theorem loadedInv_load (m : ManagerState) (name : String) (h : LoadedInv m) :
    LoadedInv (load_mod m name).2 := by
  have hmem : ¬ m.loaded_mods.contains name = true → name ∉ m.loaded_mods := by
    intro hc hmm
    exact hc (by simpa using hmm)
  unfold load_mod
  split
  · exact h
  next info heq =>
    simp only []
    split_ifs <;>
      first
      | exact loadedInv_same m _ h
      | exact loadedInv_flag_kept m name info { info with mod_instance := some () } _
          heq rfl h
      | (rw [assocSet_assocSet]
         refine loadedInv_load_success m name _ _ (hmem (by assumption)) ?_ h
         rfl)
      | (refine loadedInv_load_success m name _ _ (hmem (by assumption)) ?_ h
         rfl)

theorem loadedInv_unload (m : ManagerState) (name : String) (h : LoadedInv m) :
    LoadedInv (unload_mod m name).2 := by
  unfold unload_mod
  split_ifs with hcont
  · split
    · exact h
    next info heq =>
      simp only []
      split_ifs with hcl
      · exact h
      · refine ⟨h.1.erase name, fun n info' hl' => ?_⟩
        rw [assocLookup_assocSet] at hl'
        by_cases hn : name = n
        · rw [if_pos hn] at hl'
          cases hl'
          subst hn
          simp [h.1.mem_erase_iff]
        · rw [if_neg hn] at hl'
          rw [h.1.mem_erase_iff]
          have hiff := h.2 n info' hl'
          constructor
          · intro hld
            exact ⟨fun hh => hn hh.symm, hiff.mp hld⟩
          · intro hmm
            exact hiff.mpr hmm.2
  · exact h

theorem loadedInv_applyLifeOps (ops : List LifeOp) :
    ∀ (m : ManagerState), LoadedInv m → LoadedInv (applyLifeOps m ops) := by
  induction ops with
  | nil => intro m h; exact h
  | cons op rest ih =>
    intro m h
    rw [show applyLifeOps m (op :: rest) =
      applyLifeOps (match op with
        | .load n => (load_mod m n).2
        | .unload n => (unload_mod m n).2) rest from rfl]
    cases op with
    | load n => exact ih _ (loadedInv_load m n h)
    | unload n => exact ih _ (loadedInv_unload m n h)

theorem loadedInv_ofDiscovery (mods : List (String × ModState)) :
    LoadedInv (ManagerState.ofDiscovery mods) := by
  refine ⟨List.nodup_nil, fun n info hl => ?_⟩
  unfold ManagerState.ofDiscovery at hl
  rw [assocLookup_map_val] at hl
  cases hlk : assocLookup mods n with
  | none => rw [hlk] at hl; cases hl
  | some info0 =>
    rw [hlk] at hl
    cases hl
    simp [ModState.freshen, ManagerState.ofDiscovery]

/-- C6 (amended): after every sequence of `load_mod`/`unload_mod` operations
from a fresh discovery, a mod's `loaded` flag is true exactly when the mod is
in the manager's loaded set. (The claimed third leg of the equivalence — the
instance handle being non-null — fails, see the counterexample: the handle
stays null for a loaded mod without a `Mod` class, and stays non-null when
`initialize()` raises after assignment.) -/
theorem c6_loaded_flag_iff_loaded_set (mods : List (String × ModState))
    (ops : List LifeOp) (n : String) (info : ModState)
    (h : assocLookup (applyLifeOps (ManagerState.ofDiscovery mods) ops).discovered_mods n
      = some info) :
    info.loaded = true ↔
      n ∈ (applyLifeOps (ManagerState.ofDiscovery mods) ops).loaded_mods :=
  (loadedInv_applyLifeOps ops _ (loadedInv_ofDiscovery mods)).2 n info h

/-- Witness for `c6_loaded_flag_iff_loaded_set`: the class-less mod after
one `load_mod` — flag set and member of the loaded set. -/
theorem c6_loaded_flag_iff_loaded_set_witness :
    (⟨true, false, false, false, false, false, false, true, none⟩ : ModState).loaded = true ↔
      "a" ∈ (applyLifeOps (ManagerState.ofDiscovery modsNoClass) [.load "a"]).loaded_mods :=
  c6_loaded_flag_iff_loaded_set modsNoClass [.load "a"] "a"
    ⟨true, false, false, false, false, false, false, true, none⟩ rfl

/-- C6 counterexample: loading a mod whose `init.py` defines no `Mod` class
(tolerated by the `getattr(module, 'Mod', None)` guard) yields a mod whose
`loaded` flag is true and which sits in `loaded_mods` while its
`mod_instance` handle is still null — refuting the claimed equivalence
between the loaded flag and a non-null instance handle. -/
theorem c6_counterexample_instance_null_while_loaded :
    (assocLookup mgrNoClassLoaded.discovered_mods "a").map
        (fun i => (i.loaded, i.mod_instance.isSome)) = some (true, false) ∧
    mgrNoClassLoaded.loaded_mods = ["a"] :=
  ⟨rfl, rfl⟩

/-! ## Claim C7 — unload when cleanup raises -/

/-- C7 counterexample: the cleanup hook runs inside the same `try` as the
bookkeeping removal, so when it raises, `unload_mod` returns `False` with
the mod still in `loaded_mods`, its `loaded` flag still set and its instance
handle still held — the claim says the unload proceeds to remove all
three. -/
theorem c7_counterexample_bookkeeping_kept :
    (unload_mod mgrRaisingCleanupLoaded "a").1 = false ∧
    (unload_mod mgrRaisingCleanupLoaded "a").2.loaded_mods = ["a"] ∧
    ((assocLookup (unload_mod mgrRaisingCleanupLoaded "a").2.discovered_mods "a").map
      (fun i => (i.loaded, i.mod_instance.isSome))) = some (true, true) :=
  ⟨rfl, rfl, rfl⟩

/-- C7 amended: when a loaded mod's held instance has a cleanup hook that
raises, the exception is caught (`unload_mod` returns normally) but the call
reports failure and leaves the manager state — loaded set, loaded flag,
instance handle, module cache — completely unchanged. -/
theorem c7_unload_raising_cleanup_no_op (m : ManagerState) (mod_name : String)
    (info : ModState) (_hl : m.loaded_mods.contains mod_name = true)
    (hi : assocLookup m.discovered_mods mod_name = some info)
    (hinst : info.mod_instance.isSome = true) (hc : info.has_cleanup = true)
    (hr : info.cleanup_raises = true) :
    unload_mod m mod_name = (false, m) := by
  simp [unload_mod, hi, hinst, hc, hr]

/-- Witness for `c7_unload_raising_cleanup_no_op` at the concrete manager
holding the loaded mod with the raising cleanup hook. -/
theorem c7_unload_raising_cleanup_no_op_witness :
    unload_mod mgrRaisingCleanupLoaded "a" = (false, mgrRaisingCleanupLoaded) :=
  c7_unload_raising_cleanup_no_op mgrRaisingCleanupLoaded "a"
    raisingCleanupLoadedState rfl rfl rfl rfl rfl

/-! ## Claim C9 — namespace uniqueness under discovery -/

/-- C9 counterexample: the declared names `"My Mod"` and `"my.mod"` both
normalize to the namespace `my_mod`; discovering both leaves a single entry
holding the second mod — the first mod's entry was silently overwritten,
which the claim asserts never happens (and the normalization+reservation
rule, which only guards the four reserved words, did not intervene). -/
theorem c9_counterexample_silent_overwrite :
    validate_namespace "My Mod" = "my_mod" ∧
    validate_namespace "my.mod" = "my_mod" ∧
    discoverFold ["My Mod", "my.mod"] = [("my_mod", "my.mod")] :=
  ⟨rfl, rfl, rfl⟩

theorem discoverFold_lookup_aux (ns : String) :
    ∀ (names : List String) (acc : List (String × String)),
    assocLookup (names.foldl discoverInsert acc) ns =
      (names.reverse.find? (fun n => validate_namespace n == ns)).or
        (assocLookup acc ns) := by
  intro names
  induction names with
  | nil => intro acc; simp
  | cons n rest ih =>
    intro acc
    simp only [List.foldl_cons, List.reverse_cons, List.find?_append, Option.or_assoc]
    rw [ih]
    congr 1
    rw [discoverInsert, assocLookup_assocSet]
    by_cases h : validate_namespace n = ns <;>
      have hb : (validate_namespace n == ns) = (decide (validate_namespace n = ns)) := rfl <;>
      simp [List.find?, h, hb]

theorem discoverFold_keys_nodup_aux :
    ∀ (names : List String) (acc : List (String × String)),
    (assocKeys acc).Nodup → (assocKeys (names.foldl discoverInsert acc)).Nodup := by
  intro names
  induction names with
  | nil => intro acc h; exact h
  | cons n rest ih =>
    intro acc h
    exact ih _ (assocKeys_nodup_assocSet acc _ _ h)

/-- C9 (amended): after any discovery batch the namespaces of the discovered
map are indeed unique (they are dict keys), but a collision between two mod
names normalizing to the same namespace is resolved by *silent overwrite*:
the surviving entry is the last-scanned mod whose declared name normalizes to
that namespace — the normalization+reservation rule only avoids the four
reserved words and never prevents or repairs inter-mod collisions. -/
theorem c9_namespace_unique_last_wins (names : List String) (ns : String) :
    (assocKeys (discoverFold names)).Nodup ∧
    assocLookup (discoverFold names) ns =
      names.reverse.find? (fun n => validate_namespace n == ns) := by
  constructor
  · exact discoverFold_keys_nodup_aux names [] (by simp [assocKeys])
  · have h := discoverFold_lookup_aux ns names []
    simpa [discoverFold, assocLookup] using h

/-! ## Claim C10 — registry bulk removal by owner -/

theorem unregister_mod_entries_unchanged (r : RegistryState α) (k : String) :
    ((Registry.unregister r k).2).mod_entries = r.mod_entries := by
  unfold Registry.unregister
  split <;> rfl

theorem regops_mod_entries (A : String) :
    ∀ (ops : List (RegOp α)) (r : RegistryState α),
    assocLookup (applyRegOps r ops).mod_entries A =
      if keysRegisteredBy A ops = [] then assocLookup r.mod_entries A
      else some ((assocLookup r.mod_entries A).getD [] ++ keysRegisteredBy A ops) := by
  intro ops
  induction ops with
  | nil => intro r; simp [applyRegOps, keysRegisteredBy]
  | cons op rest ih =>
    intro r
    rw [show applyRegOps r (op :: rest) = applyRegOps (applyRegOp r op) rest from rfl]
    cases op with
    | unreg k =>
      rw [ih, show keysRegisteredBy A (RegOp.unreg k :: rest) = keysRegisteredBy A rest
          from rfl,
        show (applyRegOp r (RegOp.unreg k)).mod_entries = r.mod_entries from
          unregister_mod_entries_unchanged r k]
    | reg k v m =>
      rw [ih]
      have hset : (applyRegOp r (RegOp.reg k v m)).mod_entries =
          assocSet r.mod_entries m ((assocLookup r.mod_entries m).getD [] ++ [k]) := rfl
      by_cases hm : m = A
      · subst hm
        have hlk : assocLookup (applyRegOp r (RegOp.reg k v m)).mod_entries m =
            some ((assocLookup r.mod_entries m).getD [] ++ [k]) := by
          rw [hset, assocLookup_assocSet]
          simp
        have hkeys : keysRegisteredBy m (RegOp.reg k v m :: rest) =
            k :: keysRegisteredBy m rest := by simp [keysRegisteredBy]
        rw [hlk, hkeys]
        cases hK : keysRegisteredBy m rest with
        | nil => simp
        | cons k1 ks => simp
      · have hlk : assocLookup (applyRegOp r (RegOp.reg k v m)).mod_entries A =
            assocLookup r.mod_entries A := by
          rw [hset, assocLookup_assocSet, if_neg hm]
        have hkeys : keysRegisteredBy A (RegOp.reg k v m :: rest) =
            keysRegisteredBy A rest := by simp [keysRegisteredBy, hm]
        rw [hlk, hkeys]

theorem regops_entries_nodup :
    ∀ (ops : List (RegOp α)) (r : RegistryState α),
    (assocKeys r.entries).Nodup → (assocKeys (applyRegOps r ops).entries).Nodup := by
  intro ops
  induction ops with
  | nil => intro r h; exact h
  | cons op rest ih =>
    intro r h
    rw [show applyRegOps r (op :: rest) = applyRegOps (applyRegOp r op) rest from rfl]
    refine ih _ ?_
    cases op with
    | reg k v m => exact assocKeys_nodup_assocSet _ _ _ h
    | unreg k =>
      show (assocKeys ((Registry.unregister r k).2).entries).Nodup
      unfold Registry.unregister
      split
      · exact assocKeys_nodup_assocErase _ _ h
      · exact h

theorem eraseFold_lookup (k : String) :
    ∀ (keys : List String) (es : List (String × α)),
    (assocKeys es).Nodup →
    assocLookup
      (keys.foldl (fun es k' => if assocHas es k' then assocErase es k' else es) es) k =
      if k ∈ keys then none else assocLookup es k := by
  intro keys
  induction keys with
  | nil => intro es _; simp
  | cons k0 rest ih =>
    intro es h
    have hnd : (assocKeys (if assocHas es k0 then assocErase es k0 else es)).Nodup := by
      split
      · exact assocKeys_nodup_assocErase es k0 h
      · exact h
    rw [List.foldl_cons, ih _ hnd]
    by_cases hk : k = k0
    · subst hk
      by_cases hr : k ∈ rest
      · simp [hr]
      · simp only [hr, if_neg, List.mem_cons, true_or, if_pos]
        by_cases hh : assocHas es k
        · simp [hh, assocLookup_assocErase_self es k h]
        · simp only [hh, Bool.false_eq_true, if_neg, not_false_iff]
          exact Option.not_isSome_iff_eq_none.mp (by simpa [assocHas] using hh)
    · by_cases hr : k ∈ rest
      · simp [hr]
      · have hmem : (k ∈ k0 :: rest) = False := by
          simp [hk, hr]
        simp only [hr, if_neg, not_false_iff, hmem, if_false]
        by_cases hh : assocHas es k0
        · simp [hh, assocLookup_assocErase_ne es k0 k (Ne.symm hk)]
        · simp [hh]

/-- C10 (amended): after any history of register/unregister calls,
`unregister_mod_entries A` removes exactly the keys `A` *ever* registered
(and which are still present) — including keys whose current value was later
overwritten by a different mod — and leaves every other key's binding
untouched. -/
theorem c10_unregister_all_removes_ever_registered (α : Type) (rname A k : String)
    (ops : List (RegOp α)) :
    assocLookup
      (Registry.unregister_mod_entries (applyRegOps (Registry.init α rname) ops) A).entries
      k =
      if k ∈ keysRegisteredBy A ops then none
      else assocLookup (applyRegOps (Registry.init α rname) ops).entries k := by
  have hme := regops_mod_entries (α := α) A ops (Registry.init α rname)
  have hnd := regops_entries_nodup ops (Registry.init α rname)
    (by simp [Registry.init, assocKeys])
  cases hK : keysRegisteredBy A ops with
  | nil =>
    rw [hK] at hme
    simp only [if_pos rfl, show assocLookup (Registry.init α rname).mod_entries A = none
      from rfl] at hme
    unfold Registry.unregister_mod_entries
    rw [hme]
    simp
  | cons k0 ks =>
    rw [hK] at hme
    simp only [show assocLookup (Registry.init α rname).mod_entries A = none from rfl,
      List.cons_ne_nil, if_neg, Option.getD_none, List.nil_append,
      not_false_iff] at hme
    unfold Registry.unregister_mod_entries
    rw [hme]
    simp only
    rw [eraseFold_lookup k (k0 :: ks) _ hnd]

/-- C10 counterexample: mod A registers key `k`, mod B overwrites it (so the
*current* value of `k` was registered by B), yet `unregister_mod_entries "A"`
deletes `k` — the claim says keys whose current value was registered by a
different mod remain unchanged. -/
theorem c10_counterexample_overwritten_key_removed :
    assocLookup (applyRegOps (Registry.init Nat "tilesets") regOpsOverwrite).entries "k"
      = some 2 ∧
    assocLookup
      (Registry.unregister_mod_entries
        (applyRegOps (Registry.init Nat "tilesets") regOpsOverwrite) "A").entries "k"
      = none :=
  ⟨rfl, rfl⟩

end MS
